import Mathlib

/-!
Verification development for the ambientCG texture-library build script
(`build.py`).  The script's core pipeline is embedded shallowly:

* the quality/format fallback search (`check_file`, `get_asset_zip_url`,
  `get_asset_data`) over raw asset records,
* the per-record error-isolating catalog loop and final sort
  (`fetch_catalog_data`),
* the archive download pass with its on-disk cache, magic-byte check and
  retry loop (`download_image`, `download_images`),
* the extraction pass (`unzip_image`, `unzip_images`).

Machine-level effects are made explicit: the filesystem is a map from path
strings to byte lists, the network is a function from URLs to payloads, and
Python exceptions become `Except` errors.  Python's string primitives
(`endswith`, `upper`, `lower`, `split`, `re.sub`) are reimplemented over
`String.data` so that every definition evaluates inside the kernel.
-/

/-! ### Python string primitives over `String.data` -/

/-- ASCII uppercase of one character (Python `str.upper` on the ASCII
format names used by the script). -/
def pyUpperChar (c : Char) : Char :=
  if 'a' ≤ c ∧ c ≤ 'z' then Char.ofNat (c.toNat - 32) else c

/-- ASCII lowercase of one character (Python `str.lower`). -/
def pyLowerChar (c : Char) : Char :=
  if 'A' ≤ c ∧ c ≤ 'Z' then Char.ofNat (c.toNat + 32) else c

/-- Python `s.upper()` for the ASCII strings handled by the script. -/
def pyUpper (s : String) : String := ⟨s.data.map pyUpperChar⟩

/-- Python `s.lower()` for the ASCII strings handled by the script. -/
def pyLower (s : String) : String := ⟨s.data.map pyLowerChar⟩

/-- Python `s.endswith(suffix)`. -/
def pyEndsWith (s suffix : String) : Bool :=
  List.isSuffixOf suffix.data s.data

/-- Split a character list at every occurrence of `c`
(Python `s.split(c)` for a one-character separator: never empty). -/
def splitOnChar (c : Char) : List Char → List (List Char)
  | [] => [[]]
  | x :: xs =>
    match splitOnChar c xs with
    | [] => [[x]]
    | y :: ys => if x = c then [] :: y :: ys else (x :: y) :: ys

/-- Python `url.split("=")[-1]`: the last `=`-separated segment. -/
def lastSegment (url : String) : String :=
  ⟨(splitOnChar '=' url.data).getLastD []⟩

/-- Remove every (left-to-right, non-overlapping) occurrence of `.zip`
(Python `re.sub("\x5c.zip", "", s)`). -/
def removeAllZip : List Char → List Char
  | '.' :: 'z' :: 'i' :: 'p' :: rest => removeAllZip rest
  | x :: xs => x :: removeAllZip xs
  | [] => []

/-- `re.sub("\x5c.zip", "", s)` as used on archive filenames. -/
def strip_zip (s : String) : String := ⟨removeAllZip s.data⟩

/-- Python string `<=`: lexicographic comparison of code points
(the order used by `sorted(..., key=...)` on `assetId` strings). -/
def lexLe : List Char → List Char → Bool
  | [], _ => true
  | _ :: _, [] => false
  | a :: as, b :: bs =>
    if a.toNat < b.toNat then true
    else if b.toNat < a.toNat then false
    else lexLe as bs

/-! ### Data model: raw asset records (the consumed JSON fields) -/

/-- One entry of `asset["downloadFolders"]["default"]
["downloadFiletypeCategories"]["zip"]["downloads"]`.  `attr` is the JSON
field `"attribute"` (a Lean keyword); `zipContent := none` models a record
with no `zipContent` key, read by the script as `download.get("zipContent", [])`. -/
structure DownloadOption where
  attr : String
  downloadLink : String
  zipContent : Option (List String)
deriving DecidableEq, Repr

/-- The fields of a raw JSON asset record consumed by the script.
`dimensionX/Y := none` models JSON `null`; Python's `x or 100` also treats
`0` as falsy, which `py_or` below reproduces. -/
structure Asset where
  assetId : String
  displayName : String
  category : String
  dimensionX : Option Nat
  dimensionY : Option Nat
  downloads : List DownloadOption
deriving DecidableEq, Repr

/-- Python `x or d` for an optional number (`None` and `0` are falsy). -/
def py_or (x : Option Nat) (d : Nat) : Nat :=
  match x with
  | none => d
  | some 0 => d
  | some n => n

def IN_ZIP_IMAGE_PATH : String := "ambientcg"

/-! ### `check_file` and the quality-fallback search -/

/-- `check_file(zip_content, endswith_strings)`: iterate
`itertools.product(zip_content, endswith_strings)` (filenames outer,
suffixes inner) and return the first filename of a pair whose filename ends
with the pair's suffix. -/
def check_file (zip_content : List String) (endswith_strings : List String) :
    Option String :=
  ((zip_content.flatMap (fun filename =>
      endswith_strings.map (fun e => (filename, e)))).find?
    (fun p => pyEndsWith p.1 p.2)).map (fun p => p.1)

/-- The candidate-suffix list `image_names` built inside
`get_asset_zip_url` for the requested format. -/
def image_names (image_type : String) : List String :=
  ["Color." ++ pyLower image_type, "Normal." ++ pyLower image_type,
   "Normal.png", "var1." ++ pyLower image_type]

/-- The attribute tag `f"{quality}K-{image_type.upper()}"`. -/
def type_attribute (image_type : String) (quality : Int) : String :=
  toString quality ++ "K-" ++ pyUpper image_type

/-- The `for download in downloads` loop body of `get_asset_zip_url`:
the first download whose `attribute` equals the tag and whose
`zipContent` yields a `check_file` hit produces `(downloadLink, filename)`. -/
def scan_downloads (downloads : List DownloadOption) (attr_tag : String)
    (names : List String) : Option (String × String) :=
  downloads.findSome? (fun download =>
    if download.attr = attr_tag then
      (check_file (download.zipContent.getD []) names).map
        (fun f => (download.downloadLink, f))
    else none)

/-- Outcome of `get_asset_zip_url`: a found `(downloadLink, filename)`
pair, the `exit()` call on a missing asset with `ignore_missing` unset
(`SystemExit`, killing the run), or the `(None, None)` return. -/
inductive ZipUrlResult where
  | found (url image_filename : String)
  | exited
  | notFound
deriving DecidableEq, Repr

/-- `get_asset_zip_url(asset, image_type, ignore_missing, quality)`:
scan the downloads at the current quality tag; on a miss recurse at
`quality + 1` while `quality < 16`; at the last tier `exit()` unless
`ignore_missing`, else return `(None, None)`. -/
def get_asset_zip_url (asset : Asset) (image_type : String)
    (ignore_missing : Bool) (quality : Int) : ZipUrlResult :=
  match scan_downloads asset.downloads (type_attribute image_type quality)
      (image_names image_type) with
  | some (url, image_filename) => .found url image_filename
  | none =>
    if quality < 16 then
      get_asset_zip_url asset image_type ignore_missing (quality + 1)
    else if !ignore_missing then
      .exited
    else
      .notFound
termination_by (16 - quality).toNat
decreasing_by simp_wf; omega

/-- Fuel-indexed restatement of `get_asset_zip_url`, structurally
recursive so that the kernel can evaluate it on concrete records; it
agrees with `get_asset_zip_url` for sufficient fuel
(`get_asset_zip_url_eq_fuel`). -/
def get_asset_zip_url_fuel (asset : Asset) (image_type : String)
    (ignore_missing : Bool) : Nat → Int → ZipUrlResult
  | fuel, quality =>
    match scan_downloads asset.downloads (type_attribute image_type quality)
        (image_names image_type) with
    | some (url, image_filename) => .found url image_filename
    | none =>
      if quality < 16 then
        match fuel with
        | fuel' + 1 =>
          get_asset_zip_url_fuel asset image_type ignore_missing fuel'
            (quality + 1)
        | 0 => .notFound
      else if !ignore_missing then
        .exited
      else
        .notFound

/-- Number of recursive calls made by `get_asset_zip_url` (the quality
fallback chain length). -/
def zip_url_rec_calls (asset : Asset) (image_type : String)
    (ignore_missing : Bool) (quality : Int) : Nat :=
  match scan_downloads asset.downloads (type_attribute image_type quality)
      (image_names image_type) with
  | some _ => 0
  | none =>
    if quality < 16 then
      zip_url_rec_calls asset image_type ignore_missing (quality + 1) + 1
    else
      0
termination_by (16 - quality).toNat
decreasing_by simp_wf; omega

/-! ### `get_asset_data` and the catalog loop -/

/-- The `catalog_infos` dict built by `get_asset_data`. -/
structure CatalogInfos where
  id : String
  name : String
  category : String
  image : String
  width : Nat
  height : Nat
  creator : String
deriving DecidableEq, Repr

/-- The dict returned by `get_asset_data` (the spec's `CatalogEntry`). -/
structure CatalogEntry where
  catalog_infos : CatalogInfos
  assetId : String
  category : String
  zip_url : String
  in_zip_color_filename : String
  image_filename : String
deriving DecidableEq, Repr

/-- The exceptional exits of `get_asset_data`:
`Exception("No zip url found")`, `Exception("Excluded category")`, and the
`exit()` reached inside `get_asset_zip_url` (a `SystemExit`, which
`except Exception` does not catch). -/
inductive DataError where
  | noZipUrl
  | excluded
  | exited
deriving DecidableEq, Repr

/-- `get_asset_data(asset, image_type, ignore_missing, quality)`: resolve
the zip URL first, raise on a falsy (`None` or empty) URL, then raise on
an excluded category, else build the catalog dict.  The exclusion set
`EXCLUDED_CATEGORIES` (imported from a sibling module) is passed in as the
`excluded` list. -/
def get_asset_data (excluded : List String) (asset : Asset)
    (image_type : String) (ignore_missing : Bool) (quality : Int) :
    Except DataError CatalogEntry :=
  match get_asset_zip_url asset image_type ignore_missing quality with
  | .exited => .error .exited
  | .notFound => .error .noZipUrl
  | .found zip_url color_filename =>
    if zip_url = "" then .error .noZipUrl
    else if asset.category ∈ excluded then .error .excluded
    else .ok {
      catalog_infos := {
        id := "ambientcg#" ++ asset.assetId,
        name := asset.displayName,
        category := "[ACG]" ++ asset.category,
        image := "/" ++ IN_ZIP_IMAGE_PATH ++ "/" ++ asset.assetId ++ ".jpg",
        width := py_or asset.dimensionX 100,
        height := py_or asset.dimensionY 100,
        creator := "ambientCG.com" },
      assetId := asset.assetId,
      category := asset.category,
      zip_url := zip_url,
      in_zip_color_filename := color_filename,
      image_filename := asset.assetId ++ ".jpg" }

/-- The `for asset in json_data["foundAssets"]` loop of
`fetch_catalog_data`, over the concatenation of all fetched pages:
each record is resolved inside `try/except Exception`, so `noZipUrl` and
`excluded` are logged and the record skipped, while the `SystemExit` from
`exit()` escapes and kills the run (modelled as `Except.error ()`). -/
def resolve_assets (excluded : List String) (assets : List Asset)
    (image_type : String) (ignore_missing : Bool) (quality : Int) :
    Except Unit (List CatalogEntry) :=
  match assets with
  | [] => .ok []
  | asset :: rest =>
    match get_asset_data excluded asset image_type ignore_missing quality with
    | .ok entry =>
      (resolve_assets excluded rest image_type ignore_missing quality).map
        (fun l => entry :: l)
    | .error .exited => .error ()
    | .error .noZipUrl =>
      resolve_assets excluded rest image_type ignore_missing quality
    | .error .excluded =>
      resolve_assets excluded rest image_type ignore_missing quality

/-- `fetch_catalog_data(options)`, with the paginated HTTP retrieval
abstracted as the concatenated record list `assets`: resolve each record
with per-record error isolation, then
`sorted(catalog_data, key=lambda entry: entry["assetId"])`.  Python's
`sorted` is a stable comparison sort on the key; it is modelled by the
stable `List.insertionSort` under the code-point order `lexLe` on
`assetId`. -/
def fetch_catalog_data (excluded : List String) (assets : List Asset)
    (image_type : String) (ignore_missing : Bool) (quality : Int) :
    Except Unit (List CatalogEntry) :=
  (resolve_assets excluded assets image_type ignore_missing quality).map
    (fun catalog_data =>
      List.insertionSort
        (fun a b => lexLe a.assetId.data b.assetId.data = true) catalog_data)

/-! ### The download pass (`download_image` / `download_images`) -/

def ORIGINAL_IMAGES_PATH : String := "ambientcg_originals"
def TEXTURES_PATH : String := "ambientcg_textures"

/-- `b"PK"`, the zip magic signature checked on the first two payload
bytes. -/
def pk_magic : List Nat := [80, 75]

/-- The local archive path
`ORIGINAL_IMAGES_PATH / entry["category"] / zip_url.split("=")[-1]`. -/
def file_path_of (entry : CatalogEntry) : String :=
  ORIGINAL_IMAGES_PATH ++ "/" ++ entry.category ++ "/" ++
    lastSegment entry.zip_url

/-- Failure of one `download_image` call: the payload did not start with
`PK` (the script raises `Exception(str(content[0:20]))`; a
`UnicodeDecodeError` while decoding the first two bytes raises the same
way and is folded into this constructor). -/
inductive DownloadError where
  | badHeader (preview : List Nat)
deriving DecidableEq, Repr

/-- The observable machine state of the download pass: the files on disk
(path to byte list; directories are not modelled, `mkdir` has no
observable effect on files) and the number of network GETs performed. -/
structure FetchState where
  files : String → Option (List Nat)
  downloads : Nat

/-- `download_image(entry, options)` over explicit network and state:
skip with `False` when the cache is enabled and the archive file exists;
otherwise GET the zip, validate the first two bytes against `PK`
(raising before anything is written), then write the payload and return
`True`. -/
def download_image (net : String → List Nat) (no_image_cache : Bool)
    (entry : CatalogEntry) (st : FetchState) :
    FetchState × Except DownloadError Bool :=
  let file_path := file_path_of entry
  if !no_image_cache && (st.files file_path).isSome then
    (st, .ok false)
  else
    let content := net entry.zip_url
    let st' : FetchState := { st with downloads := st.downloads + 1 }
    if content.take 2 = pk_magic then
      ({ st' with
          files := fun p => if p = file_path then some content
                            else st'.files p },
        .ok true)
    else
      (st', .error (.badHeader (content.take 20)))

/-- The `while retry < 2` loop of `download_images` for one entry: a first
attempt, and on an exception (after `time.sleep(5)`, not modelled) exactly
one further attempt whose error is also only logged. -/
def download_entry_with_retry (net : String → List Nat)
    (no_image_cache : Bool) (entry : CatalogEntry) (st : FetchState) :
    FetchState :=
  match download_image net no_image_cache entry st with
  | (st1, .ok _) => st1
  | (st1, .error _) => (download_image net no_image_cache entry st1).1

/-- `download_images(catalog_data, options)`: the retry loop over every
entry in order. -/
def download_images (net : String → List Nat) (no_image_cache : Bool)
    (catalog_data : List CatalogEntry) (st : FetchState) : FetchState :=
  catalog_data.foldl
    (fun s entry => download_entry_with_retry net no_image_cache entry s) st

/-! ### The extraction pass (`unzip_image` / `unzip_images`) -/

/-- `unzip_image(category_path, src_path, zip_file_path, options)` over an
explicit archive store mapping an archive path to its entry names
(`none` models a malformed archive: `zipfile.ZipFile` raises
`BadZipFile`).  On success it returns the list of paths written under
`TEXTURES_PATH / category / <name without ".zip">`. -/
def unzip_image (archive : String → Option (List String))
    (category_path : String) (zip_file_path : String) :
    Except Unit (List String) :=
  let src_path := ORIGINAL_IMAGES_PATH ++ "/" ++ category_path ++ "/" ++
    zip_file_path
  let dst_path := TEXTURES_PATH ++ "/" ++ category_path ++ "/" ++
    strip_zip zip_file_path
  match archive src_path with
  | none => .error ()
  | some entries => .ok (entries.map (fun e => dst_path ++ "/" ++ e))

/-- The inner `for zip_file_path in sorted(zip_file_paths)` loop of
`unzip_images` for one category.  There is no `try/except` around
`unzip_image`, so the first `BadZipFile` propagates. -/
def unzip_category (archive : String → Option (List String))
    (category_path : String) (zips : List String) :
    Except Unit (List String) :=
  match zips with
  | [] => .ok []
  | z :: rest =>
    match unzip_image archive category_path z with
    | .error e => .error e
    | .ok written =>
      match unzip_category archive category_path rest with
      | .error e => .error e
      | .ok more => .ok (written ++ more)

/-- `unzip_images(catalog_data, options)`: iterate the category
directories and their archive files (`listing`, already in the sorted
order produced by `sorted(os.listdir(...))`); any `BadZipFile` propagates
uncaught and aborts the pass. -/
def unzip_images (archive : String → Option (List String))
    (listing : List (String × List String)) : Except Unit (List String) :=
  match listing with
  | [] => .ok []
  | (category_path, zips) :: rest =>
    match unzip_category archive category_path zips with
    | .error e => .error e
    | .ok written =>
      match unzip_images archive rest with
      | .error e => .error e
      | .ok more => .ok (written ++ more)

/-! ### Basic helper facts -/

/-- Equality of `Except` values is decidable when it is on both sides. -/
instance {ε α : Type _} [DecidableEq ε] [DecidableEq α] :
    DecidableEq (Except ε α) := fun a b =>
  match a, b with
  | .ok x, .ok y =>
    if h : x = y then isTrue (by rw [h])
    else isFalse (by intro hc; injection hc; contradiction)
  | .error x, .error y =>
    if h : x = y then isTrue (by rw [h])
    else isFalse (by intro hc; injection hc; contradiction)
  | .ok _, .error _ => isFalse (by intro hc; cases hc)
  | .error _, .ok _ => isFalse (by intro hc; cases hc)

/-- `get_asset_zip_url` agrees with its fuel-indexed restatement whenever
the fuel covers the remaining quality tiers. -/
theorem get_asset_zip_url_eq_fuel (asset : Asset) (image_type : String)
    (ignore_missing : Bool) :
    ∀ (fuel : Nat) (quality : Int), (16 - quality).toNat ≤ fuel →
      get_asset_zip_url asset image_type ignore_missing quality =
        get_asset_zip_url_fuel asset image_type ignore_missing fuel quality := by
  intro fuel
  induction fuel with
  | zero =>
    intro q hq
    rw [get_asset_zip_url.eq_def, get_asset_zip_url_fuel]
    have h16 : ¬ q < 16 := by omega
    cases hscan : scan_downloads asset.downloads (type_attribute image_type q)
        (image_names image_type) with
    | some p => cases p; rfl
    | none => simp only [if_neg h16]
  | succ fuel ih =>
    intro q hq
    rw [get_asset_zip_url.eq_def, get_asset_zip_url_fuel]
    cases hscan : scan_downloads asset.downloads (type_attribute image_type q)
        (image_names image_type) with
    | some p => cases p; rfl
    | none =>
      by_cases h16 : q < 16
      · simp only [if_pos h16]
        exact ih (q + 1) (by omega)
      · simp only [if_neg h16]

/-- `get_asset_zip_url` with the exact fuel `(16 - quality).toNat`. -/
theorem get_asset_zip_url_eq_fuel_exact (asset : Asset) (image_type : String)
    (ignore_missing : Bool) (quality : Int) :
    get_asset_zip_url asset image_type ignore_missing quality =
      get_asset_zip_url_fuel asset image_type ignore_missing
        ((16 - quality).toNat) quality :=
  get_asset_zip_url_eq_fuel asset image_type ignore_missing _ quality
    (Nat.le_refl _)

/-- `lexLe` is total. -/
theorem lexLe_total : ∀ a b : List Char, lexLe a b = true ∨ lexLe b a = true := by
  intro a
  induction a with
  | nil => intro b; left; rfl
  | cons x xs ih =>
    intro b
    cases b with
    | nil => right; rfl
    | cons y ys =>
      rcases Nat.lt_trichotomy x.toNat y.toNat with h | h | h
      · left; simp [lexLe, h]
      · rcases ih ys with h2 | h2
        · left; simp [lexLe, h, h2]
        · right; simp [lexLe, h.symm, h2]
      · right; simp [lexLe, h]

/-- `lexLe` is transitive. -/
theorem lexLe_trans : ∀ a b c : List Char,
    lexLe a b = true → lexLe b c = true → lexLe a c = true := by
  intro a
  induction a with
  | nil => intro b c _ _; rfl
  | cons x xs ih =>
    intro b c hab hbc
    cases b with
    | nil => simp [lexLe] at hab
    | cons y ys =>
      cases c with
      | nil => simp [lexLe] at hbc
      | cons z zs =>
        simp only [lexLe] at hab hbc ⊢
        split_ifs at hab hbc ⊢ with h1 h2 h3 h4 h5 h6 <;>
          first
          | rfl
          | omega
          | (exact ih ys zs hab hbc)

/-- `check_file` returns the first filename in archive-content order that
ends with any of the candidate suffixes: `itertools.product` iterates the
content list in the outer position, so content order dominates. -/
theorem check_file_eq_find? : ∀ (zip_content names : List String),
    check_file zip_content names =
      zip_content.find? (fun g => names.any (fun s => pyEndsWith g s)) := by
  intro zc names
  induction zc with
  | nil => rfl
  | cons x rest ih =>
    unfold check_file
    rw [List.flatMap_cons, List.find?_append, List.find?_map]
    have hcomp : List.find? ((fun p => pyEndsWith p.1 p.2) ∘ fun e => (x, e))
        names = List.find? (fun s => pyEndsWith x s) names := rfl
    rw [hcomp]
    cases hany : names.any (fun s => pyEndsWith x s) with
    | true =>
      rcases List.any_eq_true.mp hany with ⟨s, hs, hxs⟩
      rcases Option.isSome_iff_exists.mp
        (List.find?_isSome.mpr ⟨s, hs, hxs⟩) with ⟨s0, hs0⟩
      rw [hs0,
        @List.find?_cons_of_pos _ (fun g => names.any fun s => pyEndsWith g s)
          x rest hany]
      rfl
    | false =>
      have hnone : List.find? (fun s => pyEndsWith x s) names = none := by
        rw [List.find?_eq_none]
        intro s hs hp
        have hc := List.any_eq_true.mpr ⟨s, hs, hp⟩
        rw [hany] at hc
        cases hc
      rw [hnone,
        @List.find?_cons_of_neg _ (fun g => names.any fun s => pyEndsWith g s)
          x rest (by simp [hany])]
      simpa [check_file] using ih

/-- A successful `scan_downloads` exhibits a download of the list whose
attribute matched and whose content produced the `check_file` hit. -/
theorem scan_downloads_found (downloads : List DownloadOption)
    (attr_tag : String) (names : List String) (url f : String)
    (h : scan_downloads downloads attr_tag names = some (url, f)) :
    ∃ d ∈ downloads, d.attr = attr_tag ∧ d.downloadLink = url ∧
      check_file (d.zipContent.getD []) names = some f := by
  rcases List.exists_of_findSome?_eq_some h with ⟨d, hd, hfd⟩
  by_cases hattr : d.attr = attr_tag
  · rw [if_pos hattr] at hfd
    rcases Option.map_eq_some'.mp hfd with ⟨g, hg, hgf⟩
    rw [Prod.mk.injEq] at hgf
    obtain ⟨h1, h2⟩ := hgf
    exact ⟨d, hd, hattr, h1, h2 ▸ hg⟩
  · rw [if_neg hattr] at hfd
    cases hfd

/-- Below 16, a full miss at the current tier recurses; reaching the last
tier with a miss ends in `exit()` or `(None, None)` according to
`ignore_missing`. -/
theorem get_asset_zip_url_miss_aux (asset : Asset) (image_type : String)
    (ignore_missing : Bool) :
    ∀ (n : Nat) (q : Int), (16 - q).toNat = n →
      scan_downloads asset.downloads (type_attribute image_type q)
        (image_names image_type) = none →
      (∀ q' : Int, q < q' → q' ≤ 16 →
        scan_downloads asset.downloads (type_attribute image_type q')
          (image_names image_type) = none) →
      get_asset_zip_url asset image_type ignore_missing q =
        cond ignore_missing ZipUrlResult.notFound ZipUrlResult.exited := by
  intro n
  induction n using Nat.strong_induction_on with
  | _ n ih =>
    intro q hn hnow hlater
    rw [get_asset_zip_url.eq_def]
    simp only [hnow]
    by_cases h16 : q < 16
    · rw [if_pos h16]
      exact ih ((16 - (q + 1)).toNat) (by omega) (q + 1) rfl
        (hlater _ (by omega) (by omega))
        (fun q' hq1 hq2 => hlater q' (by omega) hq2)
    · rw [if_neg h16]
      cases ignore_missing <;> rfl

/-! ### Claims about the quality-fallback search -/

/-- A record with a single matching download whose archive lists a
`var1` file before a `Color` file: the suffix-priority reading of the
claim would pick `x_Color.jpg`. -/
def c1Asset : Asset :=
  { assetId := "Wood001", displayName := "Wood 001", category := "Wood",
    dimensionX := some 100, dimensionY := some 100,
    downloads := [{ attr := "1K-JPG", downloadLink := "u1",
                    zipContent := some ["x_var1.jpg", "x_Color.jpg"] }] }

/-- C1 counterexample: with archive contents
`["x_var1.jpg", "x_Color.jpg"]` at the requested tag `1K-JPG`, resolution
returns `x_var1.jpg` — the later suffix (`var1.jpg`) wins because it names
an earlier archive-content entry — and not the earliest-suffix match
`x_Color.jpg` required by the claim. -/
theorem c1_suffix_priority_counterexample :
    get_asset_zip_url c1Asset "jpg" true 1 = .found "u1" "x_var1.jpg" ∧
    get_asset_zip_url c1Asset "jpg" true 1 ≠ .found "u1" "x_Color.jpg" := by
  rw [get_asset_zip_url_eq_fuel_exact]
  exact ⟨by decide, by decide⟩

/-- C1 (amended): for every raw record resolved to a download option, the
returned archive filename is the first filename in the archive's content
order that ends with any of the candidate suffixes — content order is the
outer loop of `itertools.product`, so a filename matching a later suffix
wins over a later filename matching an earlier suffix. -/
theorem c1_first_content_match_wins (asset : Asset) (image_type : String)
    (ignore_missing : Bool) (quality : Int) (url f : String)
    (h : get_asset_zip_url asset image_type ignore_missing quality =
      .found url f) :
    ∃ d ∈ asset.downloads, d.downloadLink = url ∧
      (d.zipContent.getD []).find?
        (fun g => (image_names image_type).any (fun s => pyEndsWith g s)) =
        some f := by
  have H : ∀ (n : Nat) (q : Int), (16 - q).toNat = n →
      get_asset_zip_url asset image_type ignore_missing q = .found url f →
      ∃ d ∈ asset.downloads, d.downloadLink = url ∧
        (d.zipContent.getD []).find?
          (fun g => (image_names image_type).any (fun s => pyEndsWith g s)) =
          some f := by
    intro n
    induction n using Nat.strong_induction_on with
    | _ n ih =>
      intro q hn hq
      rw [get_asset_zip_url.eq_def] at hq
      cases hscan : scan_downloads asset.downloads
          (type_attribute image_type q) (image_names image_type) with
      | some p =>
        obtain ⟨u0, f0⟩ := p
        rw [hscan] at hq
        have hq' : ZipUrlResult.found u0 f0 = .found url f := hq
        injection hq' with hu hf
        subst hu; subst hf
        rcases scan_downloads_found _ _ _ _ _ hscan with ⟨d, hd, _, hlink, hcf⟩
        refine ⟨d, hd, hlink, ?_⟩
        rw [← check_file_eq_find?]
        exact hcf
      | none =>
        rw [hscan] at hq
        by_cases h16 : q < 16
        · rw [if_pos h16] at hq
          exact ih ((16 - (q + 1)).toNat) (by omega) (q + 1) rfl hq
        · rw [if_neg h16] at hq
          cases ignore_missing <;> exact ZipUrlResult.noConfusion hq
  exact H _ quality rfl h

/-- C1 amended-claim witness at the counterexample record. -/
theorem c1_first_content_match_wins_witness :
    ∃ d ∈ c1Asset.downloads, d.downloadLink = "u1" ∧
      (d.zipContent.getD []).find?
        (fun g => (image_names "jpg").any (fun s => pyEndsWith g s)) =
        some "x_var1.jpg" :=
  c1_first_content_match_wins c1Asset "jpg" true 1 "u1" "x_var1.jpg"
    (by rw [get_asset_zip_url_eq_fuel_exact]; decide)

/-- C9: the quality-fallback search terminates on every input: the number
of recursive calls of `get_asset_zip_url` is bounded by the number of
remaining tiers `(16 - quality).toNat` (zero once `quality ≥ 16`), and the
search ends in a found pair, the `exit()` outcome, or the `(None, None)`
not-found outcome. -/
theorem c9_quality_fallback_terminates (asset : Asset) (image_type : String)
    (ignore_missing : Bool) (quality : Int) :
    zip_url_rec_calls asset image_type ignore_missing quality ≤
      (16 - quality).toNat ∧
    ((∃ url f, get_asset_zip_url asset image_type ignore_missing quality =
        .found url f) ∨
      get_asset_zip_url asset image_type ignore_missing quality = .exited ∨
      get_asset_zip_url asset image_type ignore_missing quality = .notFound) := by
  constructor
  · have H : ∀ (n : Nat) (q : Int), (16 - q).toNat = n →
        zip_url_rec_calls asset image_type ignore_missing q ≤
          (16 - q).toNat := by
      intro n
      induction n using Nat.strong_induction_on with
      | _ n ih =>
        intro q hn
        rw [zip_url_rec_calls.eq_def]
        cases hscan : scan_downloads asset.downloads
            (type_attribute image_type q) (image_names image_type) with
        | some p => simp
        | none =>
          simp only []
          by_cases h16 : q < 16
          · rw [if_pos h16]
            have := ih ((16 - (q + 1)).toNat) (by omega) (q + 1) rfl
            omega
          · rw [if_neg h16]
            omega
    exact H _ quality rfl
  · cases hv : get_asset_zip_url asset image_type ignore_missing quality with
    | found u f => exact Or.inl ⟨u, f, rfl⟩
    | exited => exact Or.inr (Or.inl rfl)
    | notFound => exact Or.inr (Or.inr rfl)

/-- A download option with no (or empty) `zipContent` never produces a
`scan_downloads` hit, so it can be dropped from the scanned list. -/
theorem scan_downloads_middle_empty (ds₁ ds₂ : List DownloadOption)
    (d : DownloadOption) (tag : String) (names : List String)
    (h : d.zipContent.getD [] = []) :
    scan_downloads (ds₁ ++ d :: ds₂) tag names =
      scan_downloads (ds₁ ++ ds₂) tag names := by
  unfold scan_downloads
  rw [List.findSome?_append, List.findSome?_append]
  congr 1
  rw [List.findSome?_cons]
  have hnone : (if d.attr = tag then
      (check_file (d.zipContent.getD []) names).map
        (fun f => (d.downloadLink, f))
    else none) = none := by
    rw [h]; split <;> rfl
  rw [hnone]

/-- C10: a download option whose archive-contents list is absent
(`zipContent := none`, read back as `[]`) or empty is never selected:
resolution over a record containing such an option behaves, at every
quality tier, exactly as resolution over the record with that option
removed. -/
theorem c10_empty_content_option_skipped (asset : Asset)
    (ds₁ ds₂ : List DownloadOption) (d : DownloadOption)
    (image_type : String) (ignore_missing : Bool) (quality : Int)
    (h : d.zipContent.getD [] = []) :
    get_asset_zip_url { asset with downloads := ds₁ ++ d :: ds₂ }
        image_type ignore_missing quality =
      get_asset_zip_url { asset with downloads := ds₁ ++ ds₂ }
        image_type ignore_missing quality := by
  have H : ∀ (n : Nat) (q : Int), (16 - q).toNat = n →
      get_asset_zip_url { asset with downloads := ds₁ ++ d :: ds₂ }
          image_type ignore_missing q =
        get_asset_zip_url { asset with downloads := ds₁ ++ ds₂ }
          image_type ignore_missing q := by
    intro n
    induction n using Nat.strong_induction_on with
    | _ n ih =>
      intro q hn
      conv_lhs => rw [get_asset_zip_url.eq_def]
      conv_rhs => rw [get_asset_zip_url.eq_def]
      have hs := scan_downloads_middle_empty ds₁ ds₂ d
        (type_attribute image_type q) (image_names image_type) h
      simp only []
      rw [hs]
      cases hscan : scan_downloads (ds₁ ++ ds₂)
          (type_attribute image_type q) (image_names image_type) with
      | some p => obtain ⟨u0, f0⟩ := p; rfl
      | none =>
        by_cases h16 : q < 16
        · rw [if_pos h16, if_pos h16]
          exact ih ((16 - (q + 1)).toNat) (by omega) (q + 1) rfl
        · rw [if_neg h16, if_neg h16]
  exact H _ quality rfl

/-- A record whose downloads never match at any tier: the empty download
list. -/
def c3Asset : Asset :=
  { assetId := "Rock001", displayName := "Rock 001", category := "Rock",
    dimensionX := none, dimensionY := none, downloads := [] }

/-- C3: a record with no suffix match at any tier from the starting
quality through 16 resolves to the not-found outcome: with
`ignore_missing` unset the search ends in `exit()` (a `SystemExit` that
`except Exception` does not catch, killing the run: `resolve_assets`
errors), and with it set the record raises `"No zip url found"`, which the
catalog loop catches — the record is omitted and no exception escapes. -/
theorem c3_missing_asset_classification (excluded : List String)
    (asset : Asset) (image_type : String) (quality : Int) (rest : List Asset)
    (hnow : scan_downloads asset.downloads (type_attribute image_type quality)
      (image_names image_type) = none)
    (hlater : ∀ q : Int, quality < q → q ≤ 16 →
      scan_downloads asset.downloads (type_attribute image_type q)
        (image_names image_type) = none) :
    get_asset_zip_url asset image_type true quality = .notFound ∧
    get_asset_zip_url asset image_type false quality = .exited ∧
    get_asset_data excluded asset image_type true quality =
      .error .noZipUrl ∧
    resolve_assets excluded (asset :: rest) image_type true quality =
      resolve_assets excluded rest image_type true quality ∧
    resolve_assets excluded (asset :: rest) image_type false quality =
      .error () := by
  have ht : get_asset_zip_url asset image_type true quality = .notFound :=
    get_asset_zip_url_miss_aux asset image_type true _ quality rfl hnow hlater
  have hf : get_asset_zip_url asset image_type false quality = .exited :=
    get_asset_zip_url_miss_aux asset image_type false _ quality rfl hnow hlater
  have hd : get_asset_data excluded asset image_type true quality =
      .error .noZipUrl := by
    unfold get_asset_data; rw [ht]
  have hd2 : get_asset_data excluded asset image_type false quality =
      .error .exited := by
    unfold get_asset_data; rw [hf]
  refine ⟨ht, hf, hd, ?_, ?_⟩
  · rw [resolve_assets.eq_def]
    simp only [hd]
  · rw [resolve_assets.eq_def]
    simp only [hd2]

/-- C3 witness: a record with an empty download list, starting quality 1. -/
theorem c3_missing_asset_classification_witness :
    get_asset_zip_url c3Asset "jpg" true 1 = .notFound ∧
    get_asset_zip_url c3Asset "jpg" false 1 = .exited ∧
    get_asset_data ["Bricks"] c3Asset "jpg" true 1 = .error .noZipUrl ∧
    resolve_assets ["Bricks"] [c3Asset] "jpg" true 1 =
      resolve_assets ["Bricks"] [] "jpg" true 1 ∧
    resolve_assets ["Bricks"] [c3Asset] "jpg" false 1 = .error () :=
  c3_missing_asset_classification ["Bricks"] c3Asset "jpg" 1 [] rfl
    (fun _ _ _ => rfl)

/-! ### Claims about `get_asset_data` and the catalog list -/

/-- An excluded-category record with no matching download at any tier. -/
def c2Asset : Asset :=
  { assetId := "Bricks001", displayName := "Bricks 001",
    category := "Bricks", dimensionX := none, dimensionY := none,
    downloads := [] }

/-- An excluded-category record whose download scan succeeds at `1K-JPG`. -/
def c2FoundAsset : Asset :=
  { assetId := "Bricks002", displayName := "Bricks 002",
    category := "Bricks", dimensionX := some 100, dimensionY := some 100,
    downloads := [{ attr := "1K-JPG", downloadLink := "u2",
                    zipContent := some ["y_Color.jpg"] }] }

/-- C2 counterexample: `get_asset_data` runs the download-option scan
before the exclusion check, so an excluded-category record with no
matching option is classified `"No zip url found"`, not
`"Excluded category"` — the claim's `Excluded`-regardless behaviour fails. -/
theorem c2_excluded_counterexample :
    get_asset_data ["Bricks"] c2Asset "jpg" true 16 = .error .noZipUrl ∧
    get_asset_data ["Bricks"] c2Asset "jpg" true 16 ≠ .error .excluded := by
  have h : get_asset_data ["Bricks"] c2Asset "jpg" true 16 =
      .error .noZipUrl := by
    unfold get_asset_data
    rw [get_asset_zip_url_eq_fuel_exact]
    decide
  exact ⟨h, by rw [h]; decide⟩

/-- C2 (amended): records whose category is in the exclusion set raise
`"Excluded category"` only after the download-option scan has run and
found a non-empty archive URL; when the scan finds nothing the record is
classified as missing instead. -/
theorem c2_excluded_after_scan (excluded : List String) (asset : Asset)
    (image_type : String) (ignore_missing : Bool) (quality : Int)
    (url f : String)
    (hmem : asset.category ∈ excluded)
    (hfound : get_asset_zip_url asset image_type ignore_missing quality =
      .found url f)
    (hurl : url ≠ "") :
    get_asset_data excluded asset image_type ignore_missing quality =
      .error .excluded := by
  unfold get_asset_data
  simp only [hfound]
  rw [if_neg hurl, if_pos hmem]

/-- C2 amended-claim witness: an excluded record with a matching option. -/
theorem c2_excluded_after_scan_witness :
    get_asset_data ["Bricks"] c2FoundAsset "jpg" true 1 = .error .excluded :=
  c2_excluded_after_scan ["Bricks"] c2FoundAsset "jpg" true 1 "u2"
    "y_Color.jpg" (by decide)
    (by rw [get_asset_zip_url_eq_fuel_exact]; decide) (by decide)

/-- `get_asset_data` propagates the record's `assetId` into the entry. -/
theorem get_asset_data_ok_assetId (excluded : List String) (asset : Asset)
    (image_type : String) (ignore_missing : Bool) (quality : Int)
    (entry : CatalogEntry)
    (h : get_asset_data excluded asset image_type ignore_missing quality =
      .ok entry) :
    entry.assetId = asset.assetId := by
  unfold get_asset_data at h
  cases hz : get_asset_zip_url asset image_type ignore_missing quality with
  | exited => simp only [hz] at h; cases h
  | notFound => simp only [hz] at h; cases h
  | found url f =>
    simp only [hz] at h
    by_cases h1 : url = ""
    · rw [if_pos h1] at h; cases h
    · rw [if_neg h1] at h
      by_cases h2 : asset.category ∈ excluded
      · rw [if_pos h2] at h; cases h
      · rw [if_neg h2] at h
        injection h with h3
        rw [← h3]

/-- The ids of the resolved entries form a sublist of the input record
ids: each record contributes at most one entry, in input order. -/
theorem resolve_assets_sublist (excluded : List String) (image_type : String)
    (ignore_missing : Bool) (quality : Int) :
    ∀ (assets : List Asset) (l : List CatalogEntry),
      resolve_assets excluded assets image_type ignore_missing quality =
        .ok l →
      (l.map CatalogEntry.assetId).Sublist (assets.map Asset.assetId) := by
  intro assets
  induction assets with
  | nil =>
    intro l h
    rw [resolve_assets.eq_def] at h
    injection h with h1
    rw [← h1]
    simp
  | cons a rest ih =>
    intro l h
    rw [resolve_assets.eq_def] at h
    cases hd : get_asset_data excluded a image_type ignore_missing quality with
    | ok entry =>
      simp only [hd] at h
      cases hr : resolve_assets excluded rest image_type ignore_missing
          quality with
      | ok l' =>
        rw [hr] at h
        have h' : (Except.ok (entry :: l') : Except Unit (List CatalogEntry))
            = .ok l := h
        injection h' with h1
        rw [← h1]
        simp only [List.map_cons]
        rw [get_asset_data_ok_assetId excluded a image_type ignore_missing
          quality entry hd]
        exact List.Sublist.cons₂ _ (ih l' hr)
      | error e =>
        rw [hr] at h
        cases h
    | error e =>
      cases e with
      | exited => simp only [hd] at h; cases h
      | noZipUrl =>
        simp only [hd] at h
        exact (ih l h).trans (List.sublist_cons_self _ _)
      | excluded =>
        simp only [hd] at h
        exact (ih l h).trans (List.sublist_cons_self _ _)

/-- C4: a successful pipeline run returns the catalog list sorted by
`assetId` in ascending lexicographic code-point order, and — when the
input records carry pairwise-distinct `assetId`s — with pairwise-distinct
entry ids (at most one entry per asset). -/
theorem c4_catalog_sorted_and_unique (excluded : List String)
    (assets : List Asset) (image_type : String) (ignore_missing : Bool)
    (quality : Int) (entries : List CatalogEntry)
    (hok : fetch_catalog_data excluded assets image_type ignore_missing
      quality = .ok entries)
    (hnd : (assets.map Asset.assetId).Nodup) :
    entries.Pairwise
      (fun a b => lexLe a.assetId.data b.assetId.data = true) ∧
    (entries.map CatalogEntry.assetId).Nodup := by
  unfold fetch_catalog_data at hok
  cases hr : resolve_assets excluded assets image_type ignore_missing
      quality with
  | error e => rw [hr] at hok; cases hok
  | ok l =>
    rw [hr] at hok
    have hok' : (Except.ok (List.insertionSort
        (fun a b => lexLe a.assetId.data b.assetId.data = true) l) :
        Except Unit (List CatalogEntry)) = .ok entries := hok
    injection hok' with h1
    subst h1
    constructor
    · haveI : IsTrans CatalogEntry
          (fun a b => lexLe a.assetId.data b.assetId.data = true) :=
        ⟨fun _ _ _ hab hbc => lexLe_trans _ _ _ hab hbc⟩
      haveI : IsTotal CatalogEntry
          (fun a b => lexLe a.assetId.data b.assetId.data = true) :=
        ⟨fun _ _ => lexLe_total _ _⟩
      exact List.sorted_insertionSort _ l
    · have hperm := (List.perm_insertionSort
        (fun a b => lexLe a.assetId.data b.assetId.data = true) l).map
        CatalogEntry.assetId
      rw [List.Perm.nodup_iff hperm]
      exact List.Nodup.sublist
        (resolve_assets_sublist excluded image_type ignore_missing quality
          assets l hr) hnd

/-- Witness records for the catalog-sort claim (the spec's example ids). -/
def c4Asset (aid : String) : Asset :=
  { assetId := aid, displayName := aid, category := "Wood",
    dimensionX := some 200, dimensionY := some 300,
    downloads := [{ attr := "1K-JPG", downloadLink := "u-" ++ aid,
                    zipContent := some [aid ++ "_Color.jpg"] }] }

def c4Assets : List Asset := [c4Asset "b2", c4Asset "a1", c4Asset "c3"]

/-- The entry `get_asset_data` builds for `c4Asset aid`. -/
def c4Entry (aid : String) : CatalogEntry :=
  { catalog_infos := {
      id := "ambientcg#" ++ aid, name := aid, category := "[ACG]Wood",
      image := "/" ++ IN_ZIP_IMAGE_PATH ++ "/" ++ aid ++ ".jpg",
      width := 200, height := 300, creator := "ambientCG.com" },
    assetId := aid, category := "Wood", zip_url := "u-" ++ aid,
    in_zip_color_filename := aid ++ "_Color.jpg",
    image_filename := aid ++ ".jpg" }

def c4Expected : List CatalogEntry :=
  [c4Entry "a1", c4Entry "b2", c4Entry "c3"]

/-- C4 witness: ids `["b2", "a1", "c3"]` come back as `["a1","b2","c3"]`. -/
theorem c4_catalog_sorted_and_unique_witness :
    c4Expected.Pairwise
      (fun a b => lexLe a.assetId.data b.assetId.data = true) ∧
    (c4Expected.map CatalogEntry.assetId).Nodup :=
  c4_catalog_sorted_and_unique [] c4Assets "jpg" true 1 c4Expected
    (by
      unfold fetch_catalog_data
      simp only [resolve_assets, get_asset_data,
        get_asset_zip_url_eq_fuel_exact]
      decide)
    (by decide)

/-! ### Claims about the download pass -/

/-- A resolved entry used to exercise the download pass. -/
def sampleEntry : CatalogEntry :=
  { catalog_infos := {
      id := "ambientcg#X1", name := "X 1", category := "[ACG]Wood",
      image := "/ambientcg/X1.jpg", width := 100, height := 100,
      creator := "ambientCG.com" },
    assetId := "X1", category := "Wood",
    zip_url := "https://acg/download?file=X1_1K-JPG.zip",
    in_zip_color_filename := "X1_Color.jpg", image_filename := "X1.jpg" }

/-- An empty local cache. -/
def emptyFS : FetchState := { files := fun _ => none, downloads := 0 }

/-- A network whose payloads carry the zip magic. -/
def okNet : String → List Nat := fun _ => [80, 75, 9, 9]

/-- A network whose payloads do not start with the zip magic. -/
def badNet : String → List Nat := fun _ => [1, 2, 3]

/-- C5: with the cache enabled (`no_image_cache = false`) and the archive
absent from disk, a first successful `download_image` performs exactly one
network download, and a second call on the resulting state detects the
destination file and returns `False` without any further network call or
state change. -/
theorem c5_fetch_idempotent (net : String → List Nat)
    (entry : CatalogEntry) (st : FetchState)
    (h0 : st.files (file_path_of entry) = none)
    (h1 : (download_image net false entry st).2 = .ok true) :
    (download_image net false entry st).1.downloads = st.downloads + 1 ∧
    download_image net false entry (download_image net false entry st).1 =
      ((download_image net false entry st).1, .ok false) := by
  by_cases hm : (net entry.zip_url).take 2 = pk_magic
  · have hfirst : download_image net false entry st =
        ({ files := fun p => if p = file_path_of entry
              then some (net entry.zip_url) else st.files p,
           downloads := st.downloads + 1 }, .ok true) := by
      unfold download_image
      simp only [h0, Option.isSome_none, Bool.and_false, Bool.not_false,
        Bool.true_and, if_pos hm]
      rfl
    rw [hfirst]
    refine ⟨rfl, ?_⟩
    unfold download_image
    simp
  · exfalso
    have hfirst : (download_image net false entry st).2 =
        .error (.badHeader ((net entry.zip_url).take 20)) := by
      unfold download_image
      simp only [h0, Option.isSome_none, Bool.and_false, Bool.not_false,
        Bool.true_and, if_neg hm]
      rfl
    rw [hfirst] at h1
    cases h1

/-- C5 witness: one concrete fetch twice over an empty cache. -/
theorem c5_fetch_idempotent_witness :
    (download_image okNet false sampleEntry emptyFS).1.downloads =
      emptyFS.downloads + 1 ∧
    download_image okNet false sampleEntry
        (download_image okNet false sampleEntry emptyFS).1 =
      ((download_image okNet false sampleEntry emptyFS).1, .ok false) :=
  c5_fetch_idempotent okNet sampleEntry emptyFS rfl rfl

/-- C6 counterexample: a payload without the zip magic makes
`download_image` raise, and the `while retry < 2` loop of
`download_images` retries it — the pass performs two network download
attempts for that entry, not the single attempt the claim asserts. -/
theorem c6_integrity_retry_counterexample :
    (download_entry_with_retry badNet false sampleEntry emptyFS).downloads
      = 2 ∧
    (download_entry_with_retry badNet false sampleEntry emptyFS).downloads
      ≠ 1 :=
  ⟨rfl, by decide⟩

/-- C6 (amended): a payload failing the magic-byte check makes
`download_image` raise the integrity error (with a 20-byte preview) and
write nothing, but the retry loop treats it like any other exception: the
fetch pass performs exactly two download attempts for the entry, then
moves on with the files unchanged. -/
theorem c6_integrity_error_retried_once (net : String → List Nat)
    (entry : CatalogEntry) (st : FetchState)
    (h0 : st.files (file_path_of entry) = none)
    (hbad : (net entry.zip_url).take 2 ≠ pk_magic) :
    download_image net false entry st =
      ({ st with downloads := st.downloads + 1 },
        .error (.badHeader ((net entry.zip_url).take 20))) ∧
    (download_entry_with_retry net false entry st).downloads =
      st.downloads + 2 ∧
    (download_entry_with_retry net false entry st).files = st.files := by
  have hone : ∀ s : FetchState, s.files (file_path_of entry) = none →
      download_image net false entry s =
        ({ s with downloads := s.downloads + 1 },
          .error (.badHeader ((net entry.zip_url).take 20))) := by
    intro s hs
    unfold download_image
    simp only [hs, Option.isSome_none, Bool.and_false, Bool.not_false,
      Bool.true_and, if_neg hbad]
    rfl
  have h1 := hone st h0
  refine ⟨h1, ?_, ?_⟩ <;>
    · unfold download_entry_with_retry
      simp only [h1]
      rw [hone { st with downloads := st.downloads + 1 } h0]

/-- C6 amended-claim witness: the bad-payload fetch at a concrete entry. -/
theorem c6_integrity_error_retried_once_witness :
    download_image badNet false sampleEntry emptyFS =
      ({ emptyFS with downloads := emptyFS.downloads + 1 },
        .error (.badHeader ((badNet sampleEntry.zip_url).take 20))) ∧
    (download_entry_with_retry badNet false sampleEntry emptyFS).downloads =
      emptyFS.downloads + 2 ∧
    (download_entry_with_retry badNet false sampleEntry emptyFS).files =
      emptyFS.files :=
  c6_integrity_error_retried_once badNet sampleEntry emptyFS rfl (by decide)

/-- C7: whenever `download_image` actually downloads (no cache hit) and
the payload does not start with the zip magic, it raises the integrity
error and leaves the files on disk — in particular the destination path —
exactly as they were: the write happens only after the check passes. -/
theorem c7_no_partial_write (net : String → List Nat)
    (no_image_cache : Bool) (entry : CatalogEntry) (st : FetchState)
    (hreach : (!no_image_cache &&
      (st.files (file_path_of entry)).isSome) = false)
    (hbad : (net entry.zip_url).take 2 ≠ pk_magic) :
    (download_image net no_image_cache entry st).2 =
      .error (.badHeader ((net entry.zip_url).take 20)) ∧
    (download_image net no_image_cache entry st).1.files = st.files := by
  unfold download_image
  simp only [hreach, Bool.false_eq_true, if_false, if_neg hbad]
  constructor <;> trivial

/-- C7 witness: a concrete bad-payload fetch over an empty cache. -/
theorem c7_no_partial_write_witness :
    (download_image badNet false sampleEntry emptyFS).2 =
      .error (.badHeader ((badNet sampleEntry.zip_url).take 20)) ∧
    (download_image badNet false sampleEntry emptyFS).1.files =
      emptyFS.files :=
  c7_no_partial_write badNet false sampleEntry emptyFS rfl (by decide)

/-! ### Claims about the extraction pass -/

/-- An archive store where `a.zip` in category `Wood` is corrupt and
`b.zip` extracts to one file. -/
def c8Archive : String → Option (List String) :=
  fun p => if p = "ambientcg_originals/Wood/b.zip" then some ["x.png"]
           else none

/-- C8 counterexample: with `a.zip` corrupt and `b.zip` valid,
`unzip_images` aborts with the propagated `BadZipFile` error instead of
continuing — yet the same pass over `b.zip` alone extracts it fine, so the
corrupt archive did prevent the later archive from being extracted. -/
theorem c8_corrupt_archive_counterexample :
    unzip_images c8Archive [("Wood", ["a.zip", "b.zip"])] = .error () ∧
    unzip_images c8Archive [("Wood", ["b.zip"])] =
      .ok ["ambientcg_textures/Wood/b/x.png"] :=
  ⟨rfl, rfl⟩

/-- `unzip_image` fails exactly on a corrupt (absent) archive. -/
theorem unzip_image_error_iff (archive : String → Option (List String))
    (category_path zip_file_path : String) :
    unzip_image archive category_path zip_file_path = .error () ↔
      archive (ORIGINAL_IMAGES_PATH ++ "/" ++ category_path ++ "/" ++
        zip_file_path) = none := by
  unfold unzip_image
  cases h : archive (ORIGINAL_IMAGES_PATH ++ "/" ++ category_path ++ "/" ++
      zip_file_path) with
  | none => simp [h]
  | some es => simp [h]

/-- One category's loop fails exactly when one of its archives is
corrupt. -/
theorem unzip_category_error_iff (archive : String → Option (List String))
    (category_path : String) :
    ∀ zips : List String,
      unzip_category archive category_path zips = .error () ↔
        ∃ z ∈ zips, archive (ORIGINAL_IMAGES_PATH ++ "/" ++ category_path ++
          "/" ++ z) = none := by
  intro zips
  induction zips with
  | nil => simp [unzip_category]
  | cons z rest ih =>
    rw [unzip_category.eq_def]
    cases hz : unzip_image archive category_path z with
    | error e =>
      cases e
      simp only [hz]
      constructor
      · intro _
        exact ⟨z, List.mem_cons_self z rest,
          (unzip_image_error_iff archive category_path z).mp hz⟩
      · intro _
        trivial
    | ok written =>
      have hza : archive (ORIGINAL_IMAGES_PATH ++ "/" ++ category_path ++
          "/" ++ z) ≠ none := by
        intro hcon
        have := (unzip_image_error_iff archive category_path z).mpr hcon
        rw [this] at hz
        cases hz
      simp only [hz]
      cases hr : unzip_category archive category_path rest with
      | error e =>
        cases e
        simp only [hr]
        constructor
        · intro _
          rcases ih.mp hr with ⟨z', hz', hP⟩
          exact ⟨z', List.mem_cons_of_mem z hz', hP⟩
        · intro _
          trivial
      | ok more =>
        simp only [hr]
        constructor
        · intro hcon
          cases hcon
        · intro hcon
          rcases hcon with ⟨z', hz', hP⟩
          rcases List.mem_cons.mp hz' with h | h
          · exact absurd (h ▸ hP) hza
          · have := ih.mpr ⟨z', h, hP⟩
            rw [this] at hr
            cases hr

/-- C8: the extraction pass has no error isolation: `unzip_images` fails
(aborting the whole pass, so archives after the first corrupt one are not
extracted) exactly when some listed archive is corrupt — a corrupt archive
is never logged-and-skipped. -/
theorem c8_corrupt_archive_aborts_pass
    (archive : String → Option (List String)) :
    ∀ listing : List (String × List String),
      unzip_images archive listing = .error () ↔
        ∃ p ∈ listing, ∃ z ∈ p.2, archive (ORIGINAL_IMAGES_PATH ++ "/" ++
          p.1 ++ "/" ++ z) = none := by
  intro listing
  induction listing with
  | nil => simp [unzip_images]
  | cons p rest ih =>
    obtain ⟨category_path, zips⟩ := p
    rw [unzip_images.eq_def]
    cases hc : unzip_category archive category_path zips with
    | error e =>
      cases e
      simp only [hc]
      constructor
      · intro _
        rcases (unzip_category_error_iff archive category_path zips).mp hc
          with ⟨z, hz, hP⟩
        exact ⟨(category_path, zips), List.mem_cons_self _ _, z, hz, hP⟩
      · intro _
        trivial
    | ok written =>
      have hcat : ¬ ∃ z ∈ zips, archive (ORIGINAL_IMAGES_PATH ++ "/" ++
          category_path ++ "/" ++ z) = none := by
        intro hcon
        have := (unzip_category_error_iff archive category_path zips).mpr hcon
        rw [this] at hc
        cases hc
      simp only [hc]
      cases hr : unzip_images archive rest with
      | error e =>
        cases e
        simp only [hr]
        constructor
        · intro _
          rcases ih.mp hr with ⟨p', hp', hP⟩
          exact ⟨p', List.mem_cons_of_mem _ hp', hP⟩
        · intro _
          trivial
      | ok more =>
        simp only [hr]
        constructor
        · intro hcon
          cases hcon
        · intro hcon
          rcases hcon with ⟨p', hp', hP⟩
          rcases List.mem_cons.mp hp' with h | h
          · subst h
            exact absurd hP hcat
          · have := ih.mpr ⟨p', h, hP⟩
            rw [this] at hr
            cases hr

/-- A record scaffold for the empty-contents-option witness. -/
def c10Asset : Asset :=
  { assetId := "Metal001", displayName := "Metal 001", category := "Metal",
    dimensionX := some 100, dimensionY := some 100, downloads := [] }

/-- A download option with a matching attribute but no `zipContent`. -/
def c10EmptyOption : DownloadOption :=
  { attr := "1K-JPG", downloadLink := "u0", zipContent := none }

/-- A well-formed download option behind the empty one. -/
def c10GoodOption : DownloadOption :=
  { attr := "1K-JPG", downloadLink := "u1",
    zipContent := some ["x_Color.jpg"] }

/-- C10 witness: dropping an absent-contents option with a matching
attribute leaves resolution unchanged. -/
theorem c10_empty_content_option_skipped_witness :
    get_asset_zip_url
        { c10Asset with downloads := [] ++ c10EmptyOption :: [c10GoodOption] }
        "jpg" true 1 =
      get_asset_zip_url { c10Asset with downloads := [] ++ [c10GoodOption] }
        "jpg" true 1 :=
  c10_empty_content_option_skipped c10Asset [] [c10GoodOption]
    c10EmptyOption "jpg" true 1 rfl
